import Mathlib

/-!
Shallow embedding of `src/internal/ml/fast_predictor.py` (class `FastPredictor`),
a micro-batching inference scheduler:

* callers call `predict(features, timeout)`, which enqueues the request onto a
  FIFO ingress queue tagged with a correlation id `id(features)` (the Python
  object identity of the feature array), then polls a shared result queue,
  re-inserting non-matching results, until a matching result arrives or the
  timeout elapses;
* a single worker thread (`_worker_loop`) repeatedly takes one request from
  the ingress queue (blocking with a short timeout), greedily drains further
  requests without blocking while the batch is below `batch_size`, and hands
  the batch to `_process_batch`;
* `_process_batch` copies the feature rows into a pre-allocated buffer, runs
  the ONNX session once on the whole batch, and publishes `(batch_id, row)`
  pairs onto the result queue, index `i` of the output paired with the id at
  index `i` of the batch;
* any exception inside an iteration of the worker loop is caught, logged and
  followed by a short sleep, after which the loop continues;
* `shutdown()` sets `running := False` and joins the worker with a bound.

Modelling conventions: feature vectors and output rows are `List Int`
(their float32 entries are opaque to the scheduler — no claim depends on
float arithmetic); the caller-specified timeout and the poll loop are
modelled by a fuel parameter counting poll iterations (each concrete
iteration takes a fixed minimum amount of time, so a bound on iterations is
the model of the bounded wall-clock wait); the ONNX session together with
the buffer copy of `_process_batch` (lines 74-82, which can raise) is an
opaque fallible function `Backend`; a Python object passed to `predict` is
a pair `FeatObj` of its identity (`id(...)`) and its value.
-/

namespace FastPredictor

/-- A feature vector as the scheduler sees it: a fixed-width numeric row
(width 3 in the source; entries abstracted to `Int`). -/
abbrev Features := List Int

/-- An output row produced by the backend (width 2 in the source). -/
abbrev Output := List Int

/-- An entry of the ingress queue: the feature vector together with the
correlation id (`batch_id`) it was tagged with at `predict` time
(`self.queue.put((features, batch_id))`, line 96). -/
abbrev Req := Features × Nat

/-- A Python object passed to `predict`: its object identity (`id(features)`)
and its value. Two calls with the same object share the same identity. -/
structure FeatObj where
  addr : Nat
  val : Features
  deriving DecidableEq, Repr

/-- The scoring backend of `_process_batch` lines 74-82: the buffer load
`self.input_buffer[:batch_size] = np.array(batch)` plus
`self.session.run(...)`, either of which can raise — modelled as a fallible
function from the batch of feature rows to the output rows. -/
abbrev Backend := List Features → Except String (List Output)

/-- The mutable state of a `FastPredictor` instance: the ingress FIFO
`self.queue`, the result FIFO `self.result_queue`, the `self.running` flag,
and a count of backend invocations (instrumentation used to state that no
backend call happens after shutdown). -/
structure PredState where
  queue : List Req
  resultQueue : List (Nat × Output)
  running : Bool
  backendCalls : Nat
  deriving DecidableEq, Repr

/-- Lines 57-63 of `_worker_loop`: `while len(batch) < self.batch_size:`
take one more queued request without blocking, stopping when the queue is
empty (`queue.Empty: break`) or the batch is full. Returns the assembled
batch and the remaining queue. -/
def drainBatch (batchSize : Nat) : List Req → List Req → List Req × List Req
  | [], batch => (batch, [])
  | r :: rest, batch =>
    if batch.length < batchSize then drainBatch batchSize rest (batch ++ [r])
    else (batch, r :: rest)

/-- Lines 48-63 of `_worker_loop`: take the first request (blocking with a
1 ms timeout; `none` models `queue.Empty`, after which the loop just
continues), then greedily drain more requests up to `batch_size`. -/
def assemble (batchSize : Nat) (q : List Req) : Option (List Req × List Req) :=
  match q with
  | [] => none
  | r :: rest => some (drainBatch batchSize rest [r])

/-- Lines 84-86 of `_process_batch`:
`for i, batch_id in enumerate(batch_ids): self.result_queue.put((batch_id, outputs[i]))`.
Publishes pairs sequentially; if the outputs run out before the ids
(`outputs[i]` raises `IndexError`), the pairs published so far stay
published and the flag is `false` (the exception propagates to the worker
loop's handler). -/
def publishLoop : List Nat → List Output → List (Nat × Output) × Bool
  | [], _ => ([], true)
  | _ :: _, [] => ([], false)
  | bid :: bids, out :: outs =>
    let p := publishLoop bids outs
    ((bid, out) :: p.1, p.2)

/-- One iteration of `_worker_loop` (lines 42-71) acting on the state:
assemble a batch (or do nothing if the queue is empty), invoke the backend
once, and publish one `(batch_id, output row)` pair per request; on any
exception (backend failure, line 69-71) the exception is caught, the batch
is dropped with nothing published, and the state is otherwise unchanged so
the loop can continue. -/
def workerIter (batchSize : Nat) (backend : Backend) (s : PredState) : PredState :=
  match assemble batchSize s.queue with
  | none => s
  | some (batch, rest) =>
    match backend (batch.map Prod.fst) with
    | Except.error _ =>
      { s with queue := rest, backendCalls := s.backendCalls + 1 }
    | Except.ok outputs =>
      { s with
          queue := rest
          resultQueue := s.resultQueue ++ (publishLoop (batch.map Prod.snd) outputs).1
          backendCalls := s.backendCalls + 1 }

/-- The `while self.running:` loop of `_worker_loop` (line 42), run for a
given number of iterations: the flag is re-checked before every iteration
and the loop body is `workerIter`. -/
def workerRun (batchSize : Nat) (backend : Backend) : Nat → PredState → PredState
  | 0, s => s
  | n + 1, s =>
    if s.running then workerRun batchSize backend n (workerIter batchSize backend s) else s

/-- Lines 99-111 of `predict`: poll the result queue; a matching head is
returned (and removed), a non-matching head is re-inserted at the tail
(`self.result_queue.put((result_id, result))`), an empty queue is a short
sleep followed by a retry. Fuel counts poll iterations; fuel 0 is the
elapsed timeout, returning `none`. -/
def claimPoll : Nat → List (Nat × Output) → Nat → Option Output × List (Nat × Output)
  | 0, rq, _ => (none, rq)
  | fuel + 1, [], myId => claimPoll fuel [] myId
  | fuel + 1, (rid, res) :: rest, myId =>
    if rid = myId then (some res, rest)
    else claimPoll fuel (rest ++ [(rid, res)]) myId

/-- `predict` (lines 88-111): return `None` at once when not running;
otherwise tag the features with `batch_id = id(features)` (the object
identity), enqueue without any validation, and poll the result queue for a
matching result until the fuel (timeout) runs out. -/
def predictRun (fuel : Nat) (s : PredState) (o : FeatObj) : Option Output × PredState :=
  if s.running then
    let bid := o.addr
    let s1 := { s with queue := s.queue ++ [(o.val, bid)] }
    let p := claimPoll fuel s1.resultQueue bid
    (p.1, { s1 with resultQueue := p.2 })
  else (none, s)

/-- `shutdown` (lines 113-116): clear the running flag; the bounded
`join` does not alter the state. -/
def shutdown (s : PredState) : PredState :=
  { s with running := false }

/-- The per-request assignment a successful backend invocation induces on a
batch: request at index `i` is paired with output row at index `i` of the
backend's (deterministic) output for the whole batch. -/
def assignedBatch (score : List Features → List Output) (b : List Req) :
    List (Req × Output) :=
  b.zip (score (b.map Prod.fst))

/-- All per-request assignments over a list of batches processed by the
worker. -/
def allAssigned (score : List Features → List Output) (batches : List (List Req)) :
    List (Req × Output) :=
  (batches.map (assignedBatch score)).flatten

/-- All `(correlation id, output row)` pairs the worker publishes onto the
result queue over a list of successfully scored batches. -/
def allPubs (score : List Features → List Output) (batches : List (List Req)) :
    List (Nat × Output) :=
  (allAssigned score batches).map (fun x => (x.1.2, x.2))

/-- A backend whose output is a pure per-row function of its input row: it
maps `f` over the batch and never fails. This is the hypothesis class of the
batching-transparency property (spec section 8). -/
def rowwise (f : Features → Output) : Backend :=
  fun fs => Except.ok (fs.map f)

/-- The deterministic per-row mock scorer the spec suggests for testing
(`output = [sum(features), max(features)]`, with `max` of the fixed-width
row taken as a fold so the function is total). -/
def mockRow (v : Features) : Output :=
  [v.sum, v.foldr max 0]

/-- A backend that applies `mockRow` to every row and never fails. -/
def mockBackend : Backend :=
  fun fs => Except.ok (fs.map mockRow)

/-- Greedy draining never grows the batch beyond `batchSize` once the
accumulator is within the bound: the loop guard `len(batch) < self.batch_size`
is re-checked before every `get_nowait`. -/
theorem drainBatch_length_le (batchSize : Nat) :
    ∀ (q acc : List Req), acc.length ≤ batchSize →
      (drainBatch batchSize q acc).1.length ≤ batchSize
  | [], _, h => h
  | r :: rest, acc, h => by
    unfold drainBatch
    by_cases hlt : acc.length < batchSize
    · rw [if_pos hlt]
      exact drainBatch_length_le batchSize rest (acc ++ [r]) (by simp; omega)
    · rw [if_neg hlt]
      exact h

/-- Greedy draining only ever adds requests to the accumulator. -/
theorem drainBatch_length_ge (batchSize : Nat) :
    ∀ (q acc : List Req), acc.length ≤ (drainBatch batchSize q acc).1.length
  | [], _ => Nat.le_refl _
  | r :: rest, acc => by
    unfold drainBatch
    by_cases hlt : acc.length < batchSize
    · rw [if_pos hlt]
      calc acc.length ≤ (acc ++ [r]).length := by simp
        _ ≤ _ := drainBatch_length_ge batchSize rest (acc ++ [r])
    · rw [if_neg hlt]

/-- C2: the claim as frozen fails for the degenerate configuration
`batch_size = 0` (the constructor accepts any integer): the worker's first
blocking `get` runs before the size guard is ever checked, so with one
queued request the assembled batch has 1 request, exceeding the configured
maximum 0. -/
theorem c2_counterexample :
    assemble 0 [(([1, 2, 3] : Features), 5)] = some ([([1, 2, 3], 5)], []) ∧
      ¬ (([(([1, 2, 3] : Features), 5)] : List Req).length ≤ 0) := by
  constructor
  · rfl
  · decide

/-- C2 (amended): provided the configured maximum batch size is at least 1
(as with the default 32), every batch assembled by the worker loop — one
blocking dequeue followed by non-blocking greedy draining — has at least 1
and at most `batch_size` requests, so the backend is never invoked with
more rows than the configured maximum. -/
theorem c2_batch_bounds (batchSize : Nat) (hbs : 1 ≤ batchSize)
    (q batch rest : List Req) (h : assemble batchSize q = some (batch, rest)) :
    1 ≤ batch.length ∧ batch.length ≤ batchSize := by
  match q with
  | [] => simp [assemble] at h
  | r :: tail =>
    have h2 : drainBatch batchSize tail [r] = (batch, rest) := by
      simpa [assemble] using h
    constructor
    · have := drainBatch_length_ge batchSize tail [r]
      rw [h2] at this
      simpa using this
    · have := drainBatch_length_le batchSize tail [r] (by simpa using hbs)
      rw [h2] at this
      exact this

/-- C2 witness: the amended bound at a concrete configuration and queue. -/
theorem c2_batch_bounds_witness :
    (1 ≤ 32) ∧
      assemble 32 [(([1, 2, 3] : Features), 5)] = some ([([1, 2, 3], 5)], []) ∧
      (1 ≤ ([(([1, 2, 3] : Features), 5)] : List Req).length ∧
        ([(([1, 2, 3] : Features), 5)] : List Req).length ≤ 32) :=
  ⟨by decide, by decide,
    c2_batch_bounds 32 (by decide) [([1, 2, 3], 5)] [([1, 2, 3], 5)] [] (by decide)⟩

/-- C3: when the backend invocation for a batch raises, the worker publishes
no Result for any request of that batch (the result queue is untouched), the
running flag is untouched, and the `while` loop proceeds to its next
iteration instead of terminating — the exception is caught inside the loop
body (lines 69-71), so a single backend failure never ends the worker. -/
theorem c3_backend_failure_drops_batch (batchSize : Nat) (backend : Backend)
    (s : PredState) (batch rest : List Req) (e : String)
    (hassemble : assemble batchSize s.queue = some (batch, rest))
    (herr : backend (batch.map Prod.fst) = Except.error e) :
    (workerIter batchSize backend s).resultQueue = s.resultQueue ∧
      (workerIter batchSize backend s).running = s.running ∧
      ∀ n : Nat, s.running = true →
        workerRun batchSize backend (n + 1) s =
          workerRun batchSize backend n (workerIter batchSize backend s) := by
  refine ⟨?_, ?_, ?_⟩
  · simp [workerIter, hassemble, herr]
  · simp [workerIter, hassemble, herr]
  · intro n hrun
    simp [workerRun, hrun]

/-- C3 witness: a concrete one-request batch whose backend always fails. -/
theorem c3_backend_failure_drops_batch_witness :
    (assemble 32 (PredState.mk [([1, 2, 3], 5)] [(9, [7, 7])] true 0).queue =
        some ([([1, 2, 3], 5)], [])) ∧
      ((fun _ : List Features => (Except.error "boom" : Except String (List Output)))
          ([([1, 2, 3], 5)].map Prod.fst) = Except.error "boom") ∧
      ((workerIter 32 (fun _ => Except.error "boom")
            (PredState.mk [([1, 2, 3], 5)] [(9, [7, 7])] true 0)).resultQueue =
          (PredState.mk [([1, 2, 3], 5)] [(9, [7, 7])] true 0).resultQueue ∧
        (workerIter 32 (fun _ => Except.error "boom")
            (PredState.mk [([1, 2, 3], 5)] [(9, [7, 7])] true 0)).running =
          (PredState.mk [([1, 2, 3], 5)] [(9, [7, 7])] true 0).running ∧
        ∀ n : Nat, (PredState.mk [([1, 2, 3], 5)] [(9, [7, 7])] true 0).running = true →
          workerRun 32 (fun _ => Except.error "boom") (n + 1)
              (PredState.mk [([1, 2, 3], 5)] [(9, [7, 7])] true 0) =
            workerRun 32 (fun _ => Except.error "boom") n
              (workerIter 32 (fun _ => Except.error "boom")
                (PredState.mk [([1, 2, 3], 5)] [(9, [7, 7])] true 0))) :=
  ⟨by decide, rfl,
    c3_backend_failure_drops_batch 32 (fun _ => Except.error "boom")
      (PredState.mk [([1, 2, 3], 5)] [(9, [7, 7])] true 0)
      [([1, 2, 3], 5)] [] "boom" (by decide) rfl⟩

/-- Sequential publication (lines 84-86) pairs ids with outputs positionally:
when the backend returned as many rows as there are ids, every id is
published, no `IndexError` occurs, and the published list is exactly the
index-aligned zip. -/
theorem publishLoop_eq_zip :
    ∀ (bids : List Nat) (outs : List Output), bids.length = outs.length →
      publishLoop bids outs = (bids.zip outs, true)
  | [], [], _ => rfl
  | [], _ :: _, h => by simp at h
  | _ :: _, [], h => by simp at h
  | b :: bids, o :: outs, h => by
    have ih := publishLoop_eq_zip bids outs (by simpa using h)
    simp [publishLoop, ih]

/-- C6: for a successfully scored batch whose output row count matches the
batch (the backend contract), exactly one Result per request is appended to
the result queue, in batch order: the appended list is the zip of the ids
with the outputs, it has one entry per request, and its entry at index `i`
is the batch's id at index `i` paired with the backend's output row at
index `i`. -/
theorem c6_publish_in_order (batchSize : Nat) (backend : Backend) (s : PredState)
    (batch rest : List Req) (outputs : List Output)
    (hassemble : assemble batchSize s.queue = some (batch, rest))
    (hok : backend (batch.map Prod.fst) = Except.ok outputs)
    (hlen : outputs.length = batch.length) :
    (workerIter batchSize backend s).resultQueue =
        s.resultQueue ++ (batch.map Prod.snd).zip outputs ∧
      ((batch.map Prod.snd).zip outputs).length = batch.length ∧
      ∀ (i : Nat) (hi : i < batch.length),
        ((batch.map Prod.snd).zip outputs).get
            ⟨i, by simp [List.length_zip]; omega⟩ =
          ((batch.get ⟨i, hi⟩).2, outputs.get ⟨i, by omega⟩) := by
  have hzip : publishLoop (batch.map Prod.snd) outputs =
      ((batch.map Prod.snd).zip outputs, true) :=
    publishLoop_eq_zip _ _ (by simp [hlen])
  refine ⟨?_, ?_, ?_⟩
  · simp [workerIter, hassemble, hok, hzip]
  · simp [List.length_zip, hlen]
  · intro i hi
    simp [List.get_eq_getElem, List.getElem_zip]

/-- C6 witness: a two-request batch scored by the mock backend. -/
theorem c6_publish_in_order_witness :
    (assemble 32 (PredState.mk [([1, 2, 3], 5), ([4, 5, 6], 8)] [] true 0).queue =
        some ([([1, 2, 3], 5), ([4, 5, 6], 8)], [])) ∧
      (mockBackend ([([1, 2, 3], 5), ([4, 5, 6], 8)].map Prod.fst) =
        Except.ok [[6, 3], [15, 6]]) ∧
      (([[6, 3], [15, 6]] : List Output).length =
        ([(([1, 2, 3] : Features), 5), ([4, 5, 6], 8)] : List Req).length) ∧
      (workerIter 32 mockBackend
            (PredState.mk [([1, 2, 3], 5), ([4, 5, 6], 8)] [] true 0)).resultQueue =
        (PredState.mk [([1, 2, 3], 5), ([4, 5, 6], 8)] [] true 0).resultQueue ++
          (([(([1, 2, 3] : Features), 5), ([4, 5, 6], 8)] : List Req).map Prod.snd).zip
            [[6, 3], [15, 6]] :=
  ⟨by decide, by rfl, by decide,
    (c6_publish_in_order 32 mockBackend
        (PredState.mk [([1, 2, 3], 5), ([4, 5, 6], 8)] [] true 0)
        [([1, 2, 3], 5), ([4, 5, 6], 8)] [] [[6, 3], [15, 6]]
        (by decide) (by rfl) (by decide)).1⟩

/-- C9: once `shutdown` clears the running flag, the worker's `while` loop
exits at its very next guard check — for any number of further scheduler
iterations the state is unchanged — so no further backend invocation happens
for any request that was not already drained into an in-flight batch, and
the thread terminates (the bounded join merely waits for that exit). -/
theorem c9_shutdown_stops_worker (batchSize : Nat) (backend : Backend)
    (s : PredState) (n : Nat) :
    workerRun batchSize backend n (shutdown s) = shutdown s ∧
      (shutdown s).running = false ∧
      (workerRun batchSize backend n (shutdown s)).backendCalls = s.backendCalls := by
  refine ⟨?_, rfl, ?_⟩
  · match n with
    | 0 => rfl
    | n + 1 => simp [workerRun, shutdown]
  · match n with
    | 0 => rfl
    | n + 1 => simp [workerRun, shutdown]

/-- C10: a `predict` call made after `shutdown` has cleared the running flag
returns `None` immediately (line 89-90): nothing is enqueued onto the
ingress queue and the result queue is left exactly as it was. -/
theorem c10_predict_after_shutdown (fuel : Nat) (s : PredState) (o : FeatObj) :
    predictRun fuel (shutdown s) o = (none, shutdown s) := by
  simp [predictRun, shutdown]

/-- A poll loop that never sees a pair carrying its own correlation id
returns `none` when the fuel (timeout) is exhausted: non-matching heads are
re-inserted at the tail and stay non-matching. -/
theorem claimPoll_none_of_no_match :
    ∀ (fuel : Nat) (rq : List (Nat × Output)) (c : Nat),
      (∀ p ∈ rq, p.1 ≠ c) → (claimPoll fuel rq c).1 = none
  | 0, _, _, _ => rfl
  | fuel + 1, [], c, h => claimPoll_none_of_no_match fuel [] c h
  | fuel + 1, (rid, res) :: rest, c, h => by
    have hne : rid ≠ c := h (rid, res) (List.mem_cons_self _ _)
    have hrest : ∀ p ∈ rest ++ [(rid, res)], p.1 ≠ c := by
      intro p hp
      rcases List.mem_append.mp hp with h1 | h2
      · exact h p (List.mem_cons_of_mem _ h1)
      · have : p = (rid, res) := by simpa using h2
        rw [this]
        exact hne
    simpa [claimPoll, hne] using
      claimPoll_none_of_no_match fuel (rest ++ [(rid, res)]) c hrest

/-- C8: a `predict` call whose matching Result never arrives (no pair in the
result queue carries its correlation id — e.g. the backend failed for its
batch) returns the explicit `none` value when its fuel (the caller's
timeout, counted in poll iterations) runs out; `predictRun` is a total
function, so the call never raises. -/
theorem c8_no_result_returns_none (fuel : Nat) (s : PredState) (o : FeatObj)
    (hrun : s.running = true)
    (hno : ∀ p ∈ s.resultQueue, p.1 ≠ o.addr) :
    (predictRun fuel s o).1 = none := by
  simp only [predictRun, hrun, if_true]
  exact claimPoll_none_of_no_match fuel s.resultQueue o.addr hno

/-- C8 witness: a running predictor whose result queue holds only another
caller's result. -/
theorem c8_no_result_returns_none_witness :
    ((PredState.mk [] [(9, [7, 7])] true 0).running = true) ∧
      (∀ p ∈ (PredState.mk [] [(9, [7, 7])] true 0).resultQueue,
        p.1 ≠ (FeatObj.mk 5 [1, 2, 3]).addr) ∧
      (predictRun 4 (PredState.mk [] [(9, [7, 7])] true 0)
          (FeatObj.mk 5 [1, 2, 3])).1 = none :=
  ⟨rfl, by decide,
    c8_no_result_returns_none 4 (PredState.mk [] [(9, [7, 7])] true 0)
      (FeatObj.mk 5 [1, 2, 3]) rfl (by decide)⟩

/-- When the configured maximum is large enough for the whole queue, greedy
draining takes everything and leaves the queue empty. -/
theorem drainBatch_all (batchSize : Nat) :
    ∀ (q acc : List Req), acc.length + q.length ≤ batchSize →
      drainBatch batchSize q acc = (acc ++ q, [])
  | [], acc, _ => by simp [drainBatch]
  | r :: rest, acc, h => by
    have hlt : acc.length < batchSize := by
      simp at h
      omega
    have ih := drainBatch_all batchSize rest (acc ++ [r]) (by simp at h ⊢; omega)
    simp [drainBatch, hlt, ih]

/-- Zipping the ids of a batch with a per-row image of its features is the
same as mapping the per-request pairing over the batch. -/
theorem zip_snd_map_fst (f : Features → Output) :
    ∀ (b : List Req),
      (b.map Prod.snd).zip ((b.map Prod.fst).map f) = b.map (fun r => (r.2, f r.1))
  | [] => rfl
  | r :: rest => by
    simp only [List.map_cons, List.zip_cons_cons, zip_snd_map_fst f rest]

/-- On a successfully scored batch, one worker iteration appends exactly the
pairs of `publishLoop` to the result queue. -/
theorem workerIter_ok_resultQueue (batchSize : Nat) (backend : Backend) (s : PredState)
    (batch rest : List Req) (outputs : List Output)
    (hassemble : assemble batchSize s.queue = some (batch, rest))
    (hok : backend (batch.map Prod.fst) = Except.ok outputs) :
    (workerIter batchSize backend s).resultQueue =
      s.resultQueue ++ (publishLoop (batch.map Prod.snd) outputs).1 := by
  simp [workerIter, hassemble, hok]

/-- C7: for a backend that is a pure per-row function `f`, batching never
alters per-row results: processing the whole batch publishes, for the
request at any index `i`, exactly `(its id, f (its features))` — the very
pair published when that request is processed alone as a batch of size 1. -/
theorem c7_batching_preserves_rows (f : Features → Output) (b : List Req)
    (i : Nat) (hi : i < b.length) (hb : b ≠ []) :
    (workerIter b.length (rowwise f) (PredState.mk b [] true 0)).resultQueue =
        b.map (fun r => (r.2, f r.1)) ∧
      (workerIter 1 (rowwise f) (PredState.mk [b.get ⟨i, hi⟩] [] true 0)).resultQueue =
        [((b.get ⟨i, hi⟩).2, f (b.get ⟨i, hi⟩).1)] ∧
      (b.map (fun r => (r.2, f r.1))).get ⟨i, by simpa using hi⟩ =
        ((b.get ⟨i, hi⟩).2, f (b.get ⟨i, hi⟩).1) := by
  refine ⟨?_, ?_, ?_⟩
  · match b, hb with
    | r :: rest, _ =>
      have hassemble : assemble (r :: rest).length (r :: rest) =
          some (r :: rest, []) := by
        simp only [assemble]
        rw [drainBatch_all (r :: rest).length rest [r] (by simp; omega)]
        simp
      have hstep := workerIter_ok_resultQueue (r :: rest).length (rowwise f)
        (PredState.mk (r :: rest) [] true 0) (r :: rest) []
        (((r :: rest).map Prod.fst).map f) hassemble rfl
      rw [hstep, publishLoop_eq_zip _ _ (by simp), zip_snd_map_fst]
      simp
  · have hstep := workerIter_ok_resultQueue 1 (rowwise f)
      (PredState.mk [b.get ⟨i, hi⟩] [] true 0) [b.get ⟨i, hi⟩] []
      ([(b.get ⟨i, hi⟩).1].map f) (by simp [assemble, drainBatch]) rfl
    rw [hstep]
    simp [publishLoop]
  · simp [List.get_eq_getElem]

/-- C7 witness: the two-request batch from the spec's example, scored with
the mock per-row backend, alone and batched. -/
theorem c7_batching_preserves_rows_witness :
    (1 < ([(([1, 2, 3] : Features), 5), ([4, 5, 6], 8)] : List Req).length) ∧
      (([(([1, 2, 3] : Features), 5), ([4, 5, 6], 8)] : List Req) ≠ []) ∧
      (workerIter ([(([1, 2, 3] : Features), 5), ([4, 5, 6], 8)] : List Req).length
          (rowwise mockRow)
          (PredState.mk [([1, 2, 3], 5), ([4, 5, 6], 8)] [] true 0)).resultQueue =
        [(5, [6, 3]), (8, [15, 6])] :=
  ⟨by decide, by decide,
    ((c7_batching_preserves_rows mockRow [([1, 2, 3], 5), ([4, 5, 6], 8)] 1
        (by decide) (by decide)).1).trans (by decide)⟩

/-- A successful poll only ever returns a pair that was in the result queue
under the caller's own correlation id: the code returns `result` only after
`result_id == batch_id` (line 103), and re-inserted pairs were already
present. -/
theorem claimPoll_mem_of_some :
    ∀ (fuel : Nat) (rq : List (Nat × Output)) (c : Nat) (out : Output),
      (claimPoll fuel rq c).1 = some out → (c, out) ∈ rq
  | 0, rq, c, out, h => by simp [claimPoll] at h
  | fuel + 1, [], c, out, h => by
    have := claimPoll_mem_of_some fuel [] c out h
    exact absurd this (List.not_mem_nil _)
  | fuel + 1, (rid, res) :: rest, c, out, h => by
    by_cases hr : rid = c
    · have hres : res = out := by simpa [claimPoll, hr] using h
      rw [← hr, ← hres]
      exact List.mem_cons_self _ _
    · have hmem := claimPoll_mem_of_some fuel (rest ++ [(rid, res)]) c out
        (by simpa [claimPoll, hr] using h)
      rcases List.mem_append.mp hmem with h1 | h2
      · exact List.mem_cons_of_mem _ h1
      · have : (c, out) = (rid, res) := by simpa using h2
        have : c = rid := congrArg Prod.fst this
        exact absurd this.symm hr

/-- In a per-request assignment list whose correlation ids are pairwise
distinct, an id determines the whole entry: there is at most one request
(and one output) per id. -/
theorem eq_of_nodup_keys :
    ∀ (l : List (Req × Output)), (l.map (fun x => x.1.2)).Nodup →
      ∀ (r1 r2 : Req) (o1 o2 : Output), (r1, o1) ∈ l → (r2, o2) ∈ l →
        r1.2 = r2.2 → r1 = r2 ∧ o1 = o2
  | [], _, r1, r2, o1, o2, h1, _, _ => absurd h1 (List.not_mem_nil _)
  | p :: t, hnd, r1, r2, o1, o2, h1, h2, hkey => by
    rw [List.map_cons, List.nodup_cons] at hnd
    obtain ⟨hnotin, hndt⟩ := hnd
    rcases List.mem_cons.mp h1 with e1 | m1
    · rcases List.mem_cons.mp h2 with e2 | m2
      · rw [← e2] at e1
        exact ⟨congrArg Prod.fst e1, congrArg Prod.snd e1⟩
      · exfalso
        apply hnotin
        refine List.mem_map.mpr ⟨(r2, o2), m2, ?_⟩
        rw [← hkey]
        exact congrArg (fun x => x.1.2) e1
    · rcases List.mem_cons.mp h2 with e2 | m2
      · exfalso
        apply hnotin
        refine List.mem_map.mpr ⟨(r1, o1), m1, ?_⟩
        rw [hkey]
        exact congrArg (fun x => x.1.2) e2
      · exact eq_of_nodup_keys t hndt r1 r2 o1 o2 m1 m2 hkey

/-- When the backend honours length preservation, the requests underlying
the per-request assignments are exactly the drained requests, batch by
batch. -/
theorem allAssigned_fst (score : List Features → List Output)
    (batches : List (List Req))
    (hlen : ∀ fs, (score fs).length = fs.length) :
    (allAssigned score batches).map Prod.fst = batches.flatten := by
  induction batches with
  | nil => rfl
  | cons b bs ih =>
    have hb : (assignedBatch score b).map Prod.fst = b := by
      apply List.map_fst_zip
      rw [hlen]
      simp
    simp only [allAssigned, List.map_cons, List.flatten_cons, List.map_append]
    rw [hb]
    have ih2 : List.map Prod.fst (List.map (assignedBatch score) bs).flatten =
        bs.flatten := ih
    rw [ih2]

/-- Projecting the published pairs out of a per-request assignment list. -/
theorem map_keyOut_zip :
    ∀ (b : List Req) (outs : List Output),
      (b.zip outs).map (fun x => (x.1.2, x.2)) = (b.map Prod.snd).zip outs
  | [], _ => rfl
  | _ :: _, [] => rfl
  | r :: b, o :: outs => by
    simp only [List.zip_cons_cons, List.map_cons, map_keyOut_zip b outs]

/-- The pairs `allPubs` attributes to the worker are exactly the pairs the
publication loop of `_process_batch` puts on the result queue, batch by
batch, for a length-preserving backend. -/
theorem allPubs_eq_publishLoop (score : List Features → List Output)
    (batches : List (List Req))
    (hlen : ∀ fs, (score fs).length = fs.length) :
    allPubs score batches =
      (batches.map
        (fun b => (publishLoop (b.map Prod.snd) (score (b.map Prod.fst))).1)).flatten := by
  induction batches with
  | nil => rfl
  | cons b bs ih =>
    have hpub : publishLoop (b.map Prod.snd) (score (b.map Prod.fst)) =
        ((b.map Prod.snd).zip (score (b.map Prod.fst)), true) :=
      publishLoop_eq_zip _ _ (by rw [hlen]; simp)
    simp only [allPubs, allAssigned, List.map_cons, List.flatten_cons,
      List.map_append] at *
    rw [hpub]
    simp only [assignedBatch, map_keyOut_zip]
    rw [ih]

/-- C1: with pairwise-distinct correlation ids and a length-preserving
backend, a caller polling for its id `c` receives `none` or exactly the
output row assigned (index-for-index, via `allAssigned`) to its own request
`(v, c)` — never the output of another caller's request. The result-queue
hypothesis says every pair in the queue at poll time is one the worker
published (`allPubs`), which is all that concurrent interleaving with the
worker and with other pollers can produce. -/
theorem c1_no_cross_delivery (score : List Features → List Output)
    (hlen : ∀ fs, (score fs).length = fs.length)
    (batches : List (List Req))
    (hnodup : (batches.flatten.map Prod.snd).Nodup)
    (v : Features) (c : Nat) (ownOut : Output)
    (hown : ((v, c), ownOut) ∈ allAssigned score batches)
    (rq : List (Nat × Output))
    (hsub : ∀ p ∈ rq, p ∈ allPubs score batches)
    (fuel : Nat) :
    (claimPoll fuel rq c).1 = none ∨ (claimPoll fuel rq c).1 = some ownOut := by
  cases hres : (claimPoll fuel rq c).1 with
  | none => exact Or.inl rfl
  | some out =>
    refine Or.inr ?_
    have hmem := claimPoll_mem_of_some fuel rq c out hres
    have hp := hsub _ hmem
    rcases List.mem_map.mp hp with ⟨⟨r, o⟩, hro, heq⟩
    have hkeys : ((allAssigned score batches).map (fun x => x.1.2)).Nodup := by
      have hcomp : (allAssigned score batches).map (fun x => x.1.2) =
          ((allAssigned score batches).map Prod.fst).map Prod.snd := by
        rw [List.map_map]
        rfl
      rw [hcomp, allAssigned_fst score batches hlen]
      exact hnodup
    have hr2 : r.2 = c := congrArg Prod.fst heq
    have ho2 : o = out := congrArg Prod.snd heq
    obtain ⟨hreq, hout⟩ :=
      eq_of_nodup_keys (allAssigned score batches) hkeys (v, c) r ownOut o hown hro
        (by rw [hr2])
    rw [hout, ho2]

/-- C1 witness: two concurrent callers drained into two batches; the result
queue holds both published results with the other caller's first, so the
poll exercises the re-insertion path and still claims only its own. -/
theorem c1_no_cross_delivery_witness :
    (∀ fs : List Features, ((fs.map mockRow).length = fs.length)) ∧
      ((([[(([1, 2, 3] : Features), 5)], [([4, 5, 6], 8)]] :
          List (List Req)).flatten.map Prod.snd).Nodup) ∧
      (((([1, 2, 3] : Features), 5), ([6, 3] : Output)) ∈
        allAssigned (fun fs => fs.map mockRow)
          [[(([1, 2, 3] : Features), 5)], [([4, 5, 6], 8)]]) ∧
      (∀ p ∈ ([(8, [15, 6]), (5, [6, 3])] : List (Nat × Output)),
        p ∈ allPubs (fun fs => fs.map mockRow)
          [[(([1, 2, 3] : Features), 5)], [([4, 5, 6], 8)]]) ∧
      ((claimPoll 4 [(8, [15, 6]), (5, [6, 3])] 5).1 = none ∨
        (claimPoll 4 [(8, [15, 6]), (5, [6, 3])] 5).1 = some [6, 3]) :=
  ⟨fun fs => by simp, by decide, by decide, by decide,
    c1_no_cross_delivery (fun fs => fs.map mockRow) (fun fs => by simp)
      [[(([1, 2, 3] : Features), 5)], [([4, 5, 6], 8)]] (by decide)
      [1, 2, 3] 5 [6, 3] (by decide) [(8, [15, 6]), (5, [6, 3])] (by decide) 4⟩

/-- C4 (code bug): `predict` performs no dimensionality validation — a
feature vector of the wrong width (here 2 instead of 3) is enqueued onto
the ingress queue exactly like a well-formed one and the call proceeds to
the normal poll/timeout path instead of failing with a validation error. -/
theorem c4_wrong_dim_is_enqueued :
    predictRun 3 (PredState.mk [] [] true 0) (FeatObj.mk 7 [1, 2]) =
      (none, PredState.mk [([1, 2], 7)] [] true 0) := by
  decide

/-- C5 (code bug): correlation ids are `id(features)`, the object identity —
two `predict` calls with the same feature-vector object tag both
concurrently outstanding requests with the same id, so correlation ids are
not unique among outstanding requests. -/
theorem c5_duplicate_correlation_ids :
    ((predictRun 0
          (predictRun 0 (PredState.mk [] [] true 0) (FeatObj.mk 7 [1, 2, 3])).2
          (FeatObj.mk 7 [1, 2, 3])).2.queue =
        [([1, 2, 3], 7), ([1, 2, 3], 7)]) ∧
      ¬ (((predictRun 0
            (predictRun 0 (PredState.mk [] [] true 0) (FeatObj.mk 7 [1, 2, 3])).2
            (FeatObj.mk 7 [1, 2, 3])).2.queue.map Prod.snd).Nodup) := by
  decide

end FastPredictor
